import Mathlib

/-!
Shallow embedding of the MT6701 magnetic rotary encoder driver
(`src/MT6701.hpp` and the implementation file holding `MT6701.cpp` plus the
demo sketch), together with theorems settling the spec claims.

Modelling conventions:
* C++ `int` values (`count`, `accumulator`, `diff`, the filter size, the
  threshold) are modelled as `Int`.  C++ `%` and `/` on `int` truncate toward
  zero, so they are translated as `Int.tmod` / `Int.tdiv`.
* C++ `float` values (the rpm sample, the filter slots) are modelled as exact
  rationals `ℚ`.
* `unsigned long` times (`millis()`, `lastUpdateTime`) are modelled as `Nat`;
  the unsigned 32-bit subtraction `currentTime - lastUpdateTime` wraps modulo
  `2 ^ 32`, which `elapsedMillis` makes explicit.
* The I2C collaborator `readCount()` returns an `int` that is negative on
  failure (the implementation returns `-1`) and the raw angle in
  `[0, 16383]` on success; it is modelled as a function from the attempt
  number to the returned `Int`.
* The `rpmFilter` member is a C array of `RPM_FILTER_SIZE = 10` floats; it is
  modelled as a `List ℚ` of length 10 (writes use `List.set`, which preserves
  the length).
-/

namespace MT6701

/-- `MT6701::DEFAULT_ADDRESS = 0b0000110`. -/
def DEFAULT_ADDRESS : Nat := 6

/-- `MT6701::UPDATE_INTERVAL = 50` (milliseconds). -/
def UPDATE_INTERVAL : Int := 50

/-- `MT6701::COUNTS_PER_REVOLUTION = 16384` (14-bit encoder). -/
def COUNTS_PER_REVOLUTION : Int := 16384

/-- `MT6701::RPM_THRESHOLD = 1000`. -/
def RPM_THRESHOLD : Int := 1000

/-- `MT6701::RPM_FILTER_SIZE = 10` (length of the `rpmFilter` array). -/
def RPM_FILTER_SIZE : Int := 10

/-- `MT6701::SECONDS_PER_MINUTE = 60.0f`. -/
def SECONDS_PER_MINUTE : ℚ := 60

end MT6701

/-- The mutable state of one `MT6701` object (the private data members of the
C++ class). -/
structure MT6701 where
  address : Nat
  updateIntervalMillis : Int
  lastUpdateTime : Nat
  count : Int
  accumulator : Int
  rpm : ℚ
  rpmFilter : List ℚ
  rpmFilterIndex : Int
  rpmFilterSize : Int
  rpmThreshold : Int
  deriving DecidableEq

namespace MT6701

/-- The constructor `MT6701::MT6701(device_address, update_interval,
rpm_threshold, rpm_filter_size)`: zero all dynamic state, zero-fill the
filter array, and store
`rpm_filter_size > RPM_FILTER_SIZE ? RPM_FILTER_SIZE : rpm_filter_size`
as the effective filter size. -/
def construct (device_address : Nat) (update_interval : Int)
    (rpm_threshold : Int) (rpm_filter_size : Int) : MT6701 :=
  { address := device_address
    updateIntervalMillis := update_interval
    lastUpdateTime := 0
    count := 0
    accumulator := 0
    rpm := 0
    rpmFilter := List.replicate RPM_FILTER_SIZE.toNat 0
    rpmFilterIndex := 0
    rpmFilterSize :=
      if rpm_filter_size > RPM_FILTER_SIZE then RPM_FILTER_SIZE else rpm_filter_size
    rpmThreshold := rpm_threshold }

/-- The retry loop at the top of `MT6701::updateCount`:
`newCount = readCount(); for (int i = 0; i < 3 && newCount < 0; i++)
newCount = readCount();`.  `readCount` is the collaborator, indexed by the
attempt number; the fuel argument counts the remaining loop iterations, the
accumulated `Nat` counts the collaborator calls made so far.  Returns the
final `newCount` together with the total number of collaborator calls. -/
def readWithRetryAux (readCount : Nat → Int) : Nat → Int → Nat → Int × Nat
  | 0, cur, calls => (cur, calls)
  | fuel + 1, cur, calls =>
    if cur < 0 then readWithRetryAux readCount fuel (readCount calls) (calls + 1)
    else (cur, calls)

/-- The complete read-with-retries: one initial call, then the 3-iteration
retry loop. -/
def readWithRetry (readCount : Nat → Int) : Int × Nat :=
  readWithRetryAux readCount 3 (readCount 0) 1

/-- The wraparound correction applied to `diff = newCount - count` in
`MT6701::updateCount`: if `diff > COUNTS_PER_REVOLUTION / 2` subtract a
revolution, else if `diff < -COUNTS_PER_REVOLUTION / 2` add one. -/
def wrapDiff (newCount oldCount : Int) : Int :=
  let diff := newCount - oldCount
  if diff > COUNTS_PER_REVOLUTION / 2 then diff - COUNTS_PER_REVOLUTION
  else if diff < (-COUNTS_PER_REVOLUTION) / 2 then diff + COUNTS_PER_REVOLUTION
  else diff

/-- The instantaneous rate computed in `MT6701::updateCount`:
`rpm = (diff / (float)COUNTS_PER_REVOLUTION) *
(SECONDS_PER_MINUTE * 1000 / (float)timeElapsed)`. -/
def computeRPM (diff : Int) (timeElapsed : Nat) : ℚ :=
  ((diff : ℚ) / (COUNTS_PER_REVOLUTION : ℚ)) *
    (SECONDS_PER_MINUTE * 1000 / (timeElapsed : ℚ))

/-- `MT6701::updateRPMFilter(newRPM)`: overwrite the slot at
`rpmFilterIndex`, then advance the index modulo `rpmFilterSize` (C++ `%` on
`int`, i.e. truncated modulus `Int.tmod`; both operands are nonnegative in
every reachable state). -/
def updateRPMFilter (s : MT6701) (newRPM : ℚ) : MT6701 :=
  { s with
    rpmFilter := s.rpmFilter.set s.rpmFilterIndex.toNat newRPM
    rpmFilterIndex := (s.rpmFilterIndex + 1).tmod s.rpmFilterSize }

/-- The elapsed time `currentTime - lastUpdateTime` computed on
`unsigned long` values, which wraps modulo `2 ^ 32`. -/
def elapsedMillis (lastTime currentTime : Nat) : Nat :=
  (((currentTime : Int) - (lastTime : Int)) % (2 ^ 32)).toNat

/-- `MT6701::updateCount()`: read the collaborator with up to 3 retries; on
failure return with the state untouched; on success wrap-correct the
difference, and when the elapsed time is positive compute the instantaneous
rpm, store it in the `rpm` member and, when its absolute value is below the
threshold, fold it into the filter; finally add the difference to the
accumulator, store the new raw count and the current time.  The current
`millis()` value is passed in as `currentTime`. -/
def updateCount (s : MT6701) (readCount : Nat → Int) (currentTime : Nat) : MT6701 :=
  let newCount := (readWithRetry readCount).1
  if newCount < 0 then s
  else
    let diff := wrapDiff newCount s.count
    let timeElapsed := elapsedMillis s.lastUpdateTime currentTime
    let s1 :=
      if timeElapsed > 0 then
        let newRPM := computeRPM diff timeElapsed
        let s2 := { s with rpm := newRPM }
        if |newRPM| < (s.rpmThreshold : ℚ) then updateRPMFilter s2 newRPM else s2
      else s
    { s1 with
      accumulator := s1.accumulator + diff
      count := newCount
      lastUpdateTime := currentTime }

/-- `MT6701::getAngleDegrees() = float(count) * (360.0 / COUNTS_PER_REVOLUTION)`. -/
def getAngleDegrees (s : MT6701) : ℚ :=
  (s.count : ℚ) * (360 / (COUNTS_PER_REVOLUTION : ℚ))

/-- `MT6701::getFullTurns() = accumulator / COUNTS_PER_REVOLUTION` (C++
truncating integer division). -/
def getFullTurns (s : MT6701) : Int :=
  s.accumulator.tdiv COUNTS_PER_REVOLUTION

/-- `MT6701::getTurns() = (float)accumulator / float(COUNTS_PER_REVOLUTION)`. -/
def getTurns (s : MT6701) : ℚ :=
  (s.accumulator : ℚ) / (COUNTS_PER_REVOLUTION : ℚ)

/-- `MT6701::getAccumulator()`. -/
def getAccumulator (s : MT6701) : Int := s.accumulator

/-- `MT6701::getRPM()`: sum the first `rpmFilterSize` filter slots and divide
by `rpmFilterSize`. -/
def getRPM (s : MT6701) : ℚ :=
  (s.rpmFilter.take s.rpmFilterSize.toNat).sum / (s.rpmFilterSize : ℚ)

/-- `MT6701::getCount()`. -/
def getCount (s : MT6701) : Int := s.count

/-- One tick of the caller's polling loop: the collaborator outcomes for this
tick's read attempts, and the `millis()` value observed during the tick. -/
structure PollInput where
  readCount : Nat → Int
  time : Nat

/-- Run one `updateCount` call from a `PollInput`. -/
def poll (s : MT6701) (p : PollInput) : MT6701 :=
  updateCount s p.readCount p.time

/-- Run a sequence of `updateCount` calls. -/
def runPolls (s : MT6701) (polls : List PollInput) : MT6701 :=
  polls.foldl poll s

/-- Fold a list of accepted rate samples into the filter, one
`MT6701::updateRPMFilter` call per sample (the calls `updateCount` makes for
the samples that pass the threshold test). -/
def applyFilter (s : MT6701) (samples : List ℚ) : MT6701 :=
  samples.foldl updateRPMFilter s

end MT6701

namespace MT6701

/-- Helper: when all read attempts fail, `updateCount` returns the state
unchanged. -/
theorem updateCount_of_read_neg (s : MT6701) (f : Nat → Int) (t : Nat)
    (h : (readWithRetry f).1 < 0) : updateCount s f t = s := by
  unfold updateCount
  simp [h]

/-- Helper: field values of `updateCount` after a successful read. -/
theorem updateCount_success_fields (s : MT6701) (f : Nat → Int) (t : Nat) (v : Int)
    (hv : (readWithRetry f).1 = v) (hv0 : 0 ≤ v) :
    (updateCount s f t).accumulator = s.accumulator + wrapDiff v s.count ∧
    (updateCount s f t).count = v ∧
    (updateCount s f t).lastUpdateTime = t ∧
    (updateCount s f t).rpmFilterSize = s.rpmFilterSize ∧
    (updateCount s f t).rpmThreshold = s.rpmThreshold ∧
    (updateCount s f t).address = s.address ∧
    (updateCount s f t).updateIntervalMillis = s.updateIntervalMillis := by
  unfold updateCount
  rw [hv, if_neg (by omega)]
  simp only []
  split_ifs <;> simp [updateRPMFilter]

/-- Helper: when the elapsed time is zero, a successful `updateCount` leaves
the filter, the filter index and the `rpm` member untouched. -/
theorem updateCount_elapsed_zero (s : MT6701) (f : Nat → Int) (t : Nat) (v : Int)
    (hv : (readWithRetry f).1 = v) (hv0 : 0 ≤ v)
    (h0 : elapsedMillis s.lastUpdateTime t = 0) :
    (updateCount s f t).rpmFilter = s.rpmFilter ∧
    (updateCount s f t).rpmFilterIndex = s.rpmFilterIndex ∧
    (updateCount s f t).rpm = s.rpm := by
  unfold updateCount
  rw [hv, if_neg (by omega)]
  simp [h0]

/-- Helper: when the elapsed time is positive and the computed rate fails
the threshold test, a successful `updateCount` leaves the filter and its
index untouched but overwrites the `rpm` member with the rejected rate. -/
theorem updateCount_rejected (s : MT6701) (f : Nat → Int) (t : Nat) (v : Int)
    (hv : (readWithRetry f).1 = v) (hv0 : 0 ≤ v)
    (hpos : 0 < elapsedMillis s.lastUpdateTime t)
    (hth : ¬ |computeRPM (wrapDiff v s.count) (elapsedMillis s.lastUpdateTime t)| <
      (s.rpmThreshold : ℚ)) :
    (updateCount s f t).rpmFilter = s.rpmFilter ∧
    (updateCount s f t).rpmFilterIndex = s.rpmFilterIndex ∧
    (updateCount s f t).rpm =
      computeRPM (wrapDiff v s.count) (elapsedMillis s.lastUpdateTime t) := by
  unfold updateCount
  rw [hv, if_neg (by omega)]
  simp [hpos, hth]

/-- Helper: when the elapsed time is positive and the computed rate passes
the threshold test, a successful `updateCount` writes the rate into the slot
at the filter index, advances the index modulo the filter size, and stores
the rate in the `rpm` member. -/
theorem updateCount_accepted (s : MT6701) (f : Nat → Int) (t : Nat) (v : Int)
    (hv : (readWithRetry f).1 = v) (hv0 : 0 ≤ v)
    (hpos : 0 < elapsedMillis s.lastUpdateTime t)
    (hth : |computeRPM (wrapDiff v s.count) (elapsedMillis s.lastUpdateTime t)| <
      (s.rpmThreshold : ℚ)) :
    (updateCount s f t).rpmFilter =
      s.rpmFilter.set s.rpmFilterIndex.toNat
        (computeRPM (wrapDiff v s.count) (elapsedMillis s.lastUpdateTime t)) ∧
    (updateCount s f t).rpmFilterIndex = (s.rpmFilterIndex + 1).tmod s.rpmFilterSize ∧
    (updateCount s f t).rpm =
      computeRPM (wrapDiff v s.count) (elapsedMillis s.lastUpdateTime t) := by
  unfold updateCount
  rw [hv, if_neg (by omega)]
  simp [hpos, hth, updateRPMFilter]

/-- Helper: `getRPM` depends only on the filter contents and the filter
size. -/
theorem getRPM_congr (s s' : MT6701) (hf : s'.rpmFilter = s.rpmFilter)
    (hs : s'.rpmFilterSize = s.rpmFilterSize) : getRPM s' = getRPM s := by
  simp [getRPM, hf, hs]

end MT6701

namespace MT6701

/-- Helper: negating the dividend negates the truncated remainder. -/
theorem tmod_neg_dividend (a b : Int) : (-a).tmod b = -(a.tmod b) := by
  rw [Int.tmod_def, Int.tmod_def, Int.neg_tdiv]
  ring

/-- Helper: the C++ sign-correction idiom `((a % R) + R) % R` with truncated
`%` equals the Euclidean remainder. -/
theorem tmod_sign_correction (a : Int) :
    ((a.tmod 16384) + 16384).tmod 16384 = a % 16384 := by
  rcases le_or_lt 0 a with ha | ha
  · have h0 := Int.emod_nonneg a (show (16384 : Int) ≠ 0 by norm_num)
    rw [Int.tmod_eq_emod ha (by norm_num), Int.tmod_eq_emod (by omega) (by norm_num)]
    omega
  · have hneg : a.tmod 16384 = -((-a).tmod 16384) := by
      rw [tmod_neg_dividend]; ring
    have h1 : (-a).tmod 16384 = (-a) % 16384 :=
      Int.tmod_eq_emod (by omega) (by norm_num)
    have h2 := Int.emod_lt_of_pos (-a) (show (0 : Int) < 16384 by norm_num)
    have h3 := Int.emod_nonneg (-a) (show (16384 : Int) ≠ 0 by norm_num)
    rw [hneg, h1, Int.tmod_eq_emod (by omega) (by norm_num)]
    omega

/-- Helper: the value returned by the retry loop is one of the first four
collaborator outcomes. -/
theorem readWithRetry_result (f : Nat → Int) :
    ∃ i, i < 4 ∧ (readWithRetry f).1 = f i := by
  by_cases h0 : f 0 < 0
  · by_cases h1 : f 1 < 0
    · by_cases h2 : f 2 < 0
      · exact ⟨3, by omega, by simp [readWithRetry, readWithRetryAux, h0, h1, h2]⟩
      · exact ⟨2, by omega, by simp [readWithRetry, readWithRetryAux, h0, h1, h2]⟩
    · exact ⟨1, by omega, by simp [readWithRetry, readWithRetryAux, h0, h1]⟩
  · exact ⟨0, by omega, by simp [readWithRetry, readWithRetryAux, h0]⟩

/-- C1: Wraparound correction: for `RESOLUTION = 16384`, a successful poll
that moves the raw reading from `16383` to `0` computes `diff = 1` (not
`-16383`) and increases the accumulator by 1; a successful poll that moves
the raw reading from `0` to `16383` computes `diff = -1` and decreases the
accumulator by 1. -/
theorem wraparound_correction (s s' : MT6701) (f f' : Nat → Int) (t t' : Nat)
    (hc : s.count = 16383) (hr : (readWithRetry f).1 = 0)
    (hc' : s'.count = 0) (hr' : (readWithRetry f').1 = 16383) :
    wrapDiff 0 16383 = 1 ∧
    (updateCount s f t).accumulator = s.accumulator + 1 ∧
    (updateCount s f t).count = 0 ∧
    wrapDiff 16383 0 = -1 ∧
    (updateCount s' f' t').accumulator = s'.accumulator - 1 ∧
    (updateCount s' f' t').count = 16383 := by
  obtain ⟨ha1, hc1, -, -, -, -, -⟩ := updateCount_success_fields s f t 0 hr (le_refl 0)
  obtain ⟨ha2, hc2, -, -, -, -, -⟩ :=
    updateCount_success_fields s' f' t' 16383 hr' (by norm_num)
  refine ⟨by decide, ?_, hc1, by decide, ?_, hc2⟩
  · rw [ha1, hc, show wrapDiff 0 16383 = 1 from by decide]
  · rw [ha2, hc', show wrapDiff 16383 0 = -1 from by decide]
    omega

/-- Witness for C1 at a concrete state, collaborator and time. -/
theorem wraparound_correction_witness :
    wrapDiff 0 16383 = 1 ∧
    (updateCount { construct 6 50 1000 10 with count := 16383 } (fun _ => 0) 5).accumulator
      = ({ construct 6 50 1000 10 with count := 16383 } : MT6701).accumulator + 1 ∧
    (updateCount { construct 6 50 1000 10 with count := 16383 } (fun _ => 0) 5).count = 0 ∧
    wrapDiff 16383 0 = -1 ∧
    (updateCount (construct 6 50 1000 10) (fun _ => 16383) 5).accumulator
      = (construct 6 50 1000 10).accumulator - 1 ∧
    (updateCount (construct 6 50 1000 10) (fun _ => 16383) 5).count = 16383 :=
  wraparound_correction _ _ _ _ _ _ rfl rfl rfl rfl

/-- C4: Half-revolution boundary: the corrected difference equals the raw
difference exactly when the raw difference lies in the closed interval
`[-RESOLUTION/2, RESOLUTION/2]`; in particular a raw difference of exactly
`RESOLUTION/2` or exactly `-RESOLUTION/2` is not corrected, and correction
happens only for raw differences strictly greater than `RESOLUTION/2` or
strictly less than `-RESOLUTION/2`. -/
theorem half_revolution_boundary (n c : Int) :
    wrapDiff n c = n - c ↔
      (-(COUNTS_PER_REVOLUTION / 2) ≤ n - c ∧ n - c ≤ COUNTS_PER_REVOLUTION / 2) := by
  simp only [wrapDiff, COUNTS_PER_REVOLUTION]
  split_ifs <;> omega

/-- C3: Failure path of `updateCount`: on a failed read the collaborator is
retried up to 3 additional times (4 attempts in all, stopping at the first
success); when all 4 attempts fail the call changes nothing, so every
accessor returns the same value as before the call. -/
theorem poll_failure_is_noop (s : MT6701) (f : Nat → Int) (t : Nat) :
    ((∀ i, i < 4 → f i < 0) →
      updateCount s f t = s ∧
      (readWithRetry f).2 = 4 ∧
      getAngleDegrees (updateCount s f t) = getAngleDegrees s ∧
      getTurns (updateCount s f t) = getTurns s ∧
      getFullTurns (updateCount s f t) = getFullTurns s ∧
      getAccumulator (updateCount s f t) = getAccumulator s ∧
      getRPM (updateCount s f t) = getRPM s ∧
      getCount (updateCount s f t) = getCount s) ∧
    (∀ j, j < 4 → (∀ i, i < j → f i < 0) → 0 ≤ f j →
      readWithRetry f = (f j, j + 1)) := by
  constructor
  · intro h
    have h0 := h 0 (by omega)
    have h1 := h 1 (by omega)
    have h2 := h 2 (by omega)
    have h3 := h 3 (by omega)
    have hr : readWithRetry f = (f 3, 4) := by
      simp [readWithRetry, readWithRetryAux, h0, h1, h2]
    have hs : updateCount s f t = s :=
      updateCount_of_read_neg s f t (by rw [hr]; exact h3)
    rw [hs, hr]
    exact ⟨rfl, rfl, rfl, rfl, rfl, rfl, rfl, rfl⟩
  · intro j hj hprev hsucc
    interval_cases j
    · simp [readWithRetry, readWithRetryAux, not_lt.2 hsucc]
    · simp [readWithRetry, readWithRetryAux, hprev 0 (by omega), not_lt.2 hsucc]
    · simp [readWithRetry, readWithRetryAux, hprev 0 (by omega), hprev 1 (by omega),
        not_lt.2 hsucc]
    · simp [readWithRetry, readWithRetryAux, hprev 0 (by omega), hprev 1 (by omega),
        hprev 2 (by omega), not_lt.2 hsucc]

/-- Witness for C3: a collaborator that always fails leaves a concrete state
unchanged after 4 attempts, and a collaborator that fails once and then
succeeds is called exactly twice. -/
theorem poll_failure_is_noop_witness :
    updateCount (construct 6 50 1000 10) (fun _ => -1) 7 = construct 6 50 1000 10 ∧
    (readWithRetry fun _ => (-1 : Int)).2 = 4 ∧
    readWithRetry (fun i => if i = 0 then (-1 : Int) else 3) = (3, 2) := by
  refine ⟨?_, ?_, ?_⟩
  · exact ((poll_failure_is_noop (construct 6 50 1000 10) (fun _ => -1) 7).1
      (fun i _ => by norm_num)).1
  · exact ((poll_failure_is_noop (construct 6 50 1000 10) (fun _ => -1) 7).1
      (fun i _ => by norm_num)).2.1
  · have h := (poll_failure_is_noop (construct 6 50 1000 10)
      (fun i => if i = 0 then (-1 : Int) else 3) 7).2 1 (by omega)
      (fun i hi => by interval_cases i; norm_num) (by norm_num)
    simpa using h

/-- C5: Zero-elapsed-time safety: a successful `updateCount` call whose
elapsed time is `0` skips the rate computation (the filter, the filter index
and the `rpm` member are untouched, so `getRPM` is unaffected), while the
accumulator, the stored raw count and the timestamp still update. -/
theorem zero_elapsed_safety (s : MT6701) (f : Nat → Int) (t : Nat) (v : Int)
    (hv : (readWithRetry f).1 = v) (hv0 : 0 ≤ v)
    (h0 : elapsedMillis s.lastUpdateTime t = 0) :
    (updateCount s f t).rpmFilter = s.rpmFilter ∧
    (updateCount s f t).rpmFilterIndex = s.rpmFilterIndex ∧
    (updateCount s f t).rpm = s.rpm ∧
    getRPM (updateCount s f t) = getRPM s ∧
    (updateCount s f t).accumulator = s.accumulator + wrapDiff v s.count ∧
    (updateCount s f t).count = v ∧
    (updateCount s f t).lastUpdateTime = t := by
  have hz := updateCount_elapsed_zero s f t v hv hv0 h0
  have hs := updateCount_success_fields s f t v hv hv0
  exact ⟨hz.1, hz.2.1, hz.2.2, getRPM_congr _ _ hz.1 hs.2.2.2.1, hs.1, hs.2.1, hs.2.2.1⟩

/-- Witness for C5: two polls at the same `millis()` value 0. -/
theorem zero_elapsed_safety_witness :
    (updateCount (construct 6 50 1000 10) (fun _ => 5) 0).rpmFilter
      = (construct 6 50 1000 10).rpmFilter ∧
    (updateCount (construct 6 50 1000 10) (fun _ => 5) 0).rpmFilterIndex
      = (construct 6 50 1000 10).rpmFilterIndex ∧
    (updateCount (construct 6 50 1000 10) (fun _ => 5) 0).rpm
      = (construct 6 50 1000 10).rpm ∧
    getRPM (updateCount (construct 6 50 1000 10) (fun _ => 5) 0)
      = getRPM (construct 6 50 1000 10) ∧
    (updateCount (construct 6 50 1000 10) (fun _ => 5) 0).accumulator
      = (construct 6 50 1000 10).accumulator
        + wrapDiff 5 (construct 6 50 1000 10).count ∧
    (updateCount (construct 6 50 1000 10) (fun _ => 5) 0).count = 5 ∧
    (updateCount (construct 6 50 1000 10) (fun _ => 5) 0).lastUpdateTime = 0 :=
  zero_elapsed_safety (construct 6 50 1000 10) (fun _ => 5) 0 5 rfl (by norm_num)
    (by decide)

end MT6701

namespace MT6701

/-- C9 (amended): on a successful poll whose computed rate fails the
threshold test, the discarded sample is not written into the filter buffer
(the buffer, the write index, and hence `getRPM` are unchanged), and the
accumulator, stored raw count and timestamp still update; however, the
`rpm` member (the stored last-instant rate) IS overwritten with the rejected
rate, because `updateCount` assigns it before the threshold test. -/
theorem rejected_sample_frame (s : MT6701) (f : Nat → Int) (t : Nat) (v : Int)
    (hv : (readWithRetry f).1 = v) (hv0 : 0 ≤ v)
    (hel : 0 < elapsedMillis s.lastUpdateTime t)
    (hth : ¬ |computeRPM (wrapDiff v s.count) (elapsedMillis s.lastUpdateTime t)| <
      (s.rpmThreshold : ℚ)) :
    (updateCount s f t).rpmFilter = s.rpmFilter ∧
    (updateCount s f t).rpmFilterIndex = s.rpmFilterIndex ∧
    getRPM (updateCount s f t) = getRPM s ∧
    (updateCount s f t).rpm =
      computeRPM (wrapDiff v s.count) (elapsedMillis s.lastUpdateTime t) ∧
    (updateCount s f t).accumulator = s.accumulator + wrapDiff v s.count ∧
    (updateCount s f t).count = v ∧
    (updateCount s f t).lastUpdateTime = t := by
  have hr := updateCount_rejected s f t v hv hv0 hel hth
  have hs := updateCount_success_fields s f t v hv hv0
  exact ⟨hr.1, hr.2.1, getRPM_congr _ _ hr.1 hs.2.2.2.1, hr.2.2, hs.1, hs.2.1, hs.2.2.1⟩

/-- Helper: on the concrete input used for C9, the computed rate is 300. -/
theorem rejectedRateValue :
    computeRPM (wrapDiff 8192 (construct 6 50 1 10).count)
      (elapsedMillis (construct 6 50 1 10).lastUpdateTime 100) = 300 := by
  have hw : wrapDiff 8192 (construct 6 50 1 10).count = 8192 := by decide
  have he : elapsedMillis (construct 6 50 1 10).lastUpdateTime 100 = 100 := by decide
  rw [hw, he]
  norm_num [computeRPM, COUNTS_PER_REVOLUTION, SECONDS_PER_MINUTE]

/-- Helper: on the concrete input used for C9, the computed rate fails the
threshold test (threshold 1). -/
theorem rejectedRateAboveThreshold :
    ¬ |computeRPM (wrapDiff 8192 (construct 6 50 1 10).count)
        (elapsedMillis (construct 6 50 1 10).lastUpdateTime 100)| <
      ((construct 6 50 1 10).rpmThreshold : ℚ) := by
  rw [rejectedRateValue, show ((construct 6 50 1 10).rpmThreshold : ℚ) = 1 by
    simp [construct]]
  norm_num

/-- Counterexample for C9 as stated: with threshold 1, a successful read of
8192 after 100 ms computes the rate 300, which is rejected, yet the `rpm`
member changes from 0 to 300 — the stored last-instant rate is NOT left
unchanged by the discarded sample. -/
theorem rejected_sample_overwrites_rpm :
    (¬ |computeRPM (wrapDiff 8192 (construct 6 50 1 10).count)
        (elapsedMillis (construct 6 50 1 10).lastUpdateTime 100)| <
      ((construct 6 50 1 10).rpmThreshold : ℚ)) ∧
    (updateCount (construct 6 50 1 10) (fun _ => 8192) 100).rpm ≠
      (construct 6 50 1 10).rpm := by
  refine ⟨rejectedRateAboveThreshold, ?_⟩
  have h := (updateCount_rejected (construct 6 50 1 10) (fun _ => 8192) 100 8192 rfl
    (by norm_num) (by decide) rejectedRateAboveThreshold).2.2
  rw [h, rejectedRateValue, show (construct 6 50 1 10).rpm = 0 from rfl]
  norm_num

/-- Witness for C9 (amended) at the same concrete input. -/
theorem rejected_sample_frame_witness :
    (updateCount (construct 6 50 1 10) (fun _ => 8192) 100).rpmFilter
      = (construct 6 50 1 10).rpmFilter ∧
    (updateCount (construct 6 50 1 10) (fun _ => 8192) 100).rpmFilterIndex
      = (construct 6 50 1 10).rpmFilterIndex ∧
    getRPM (updateCount (construct 6 50 1 10) (fun _ => 8192) 100)
      = getRPM (construct 6 50 1 10) ∧
    (updateCount (construct 6 50 1 10) (fun _ => 8192) 100).rpm
      = computeRPM (wrapDiff 8192 (construct 6 50 1 10).count)
          (elapsedMillis (construct 6 50 1 10).lastUpdateTime 100) ∧
    (updateCount (construct 6 50 1 10) (fun _ => 8192) 100).accumulator
      = (construct 6 50 1 10).accumulator
        + wrapDiff 8192 (construct 6 50 1 10).count ∧
    (updateCount (construct 6 50 1 10) (fun _ => 8192) 100).count = 8192 ∧
    (updateCount (construct 6 50 1 10) (fun _ => 8192) 100).lastUpdateTime = 100 :=
  rejected_sample_frame (construct 6 50 1 10) (fun _ => 8192) 100 8192 rfl
    (by norm_num) (by decide) rejectedRateAboveThreshold

/-- Counterexample for C8 as stated: a requested filter size of 0 is stored
unchanged, outside `[1, RPM_FILTER_SIZE]`. -/
theorem construct_no_lower_clamp :
    (construct 6 50 1000 0).rpmFilterSize = 0 ∧
    ¬ (1 ≤ (construct 6 50 1000 0).rpmFilterSize ∧
        (construct 6 50 1000 0).rpmFilterSize ≤ RPM_FILTER_SIZE) := by
  decide

/-- C8 (amended): the constructor clamps the requested filter size only from
above: the stored size is `min(requested, RPM_FILTER_SIZE)`, so every
requested size of at least 1 yields a stored size in `[1, RPM_FILTER_SIZE]`
(hence no division or modulus by zero in `getRPM` / `updateRPMFilter`), while
a requested size of 0 or less is stored unchanged. -/
theorem construct_clamp (a : Nat) (u th n : Int) (hn : 1 ≤ n) :
    (construct a u th n).rpmFilterSize =
      (if n > RPM_FILTER_SIZE then RPM_FILTER_SIZE else n) ∧
    1 ≤ (construct a u th n).rpmFilterSize ∧
    (construct a u th n).rpmFilterSize ≤ RPM_FILTER_SIZE := by
  refine ⟨rfl, ?_, ?_⟩ <;> simp only [construct, RPM_FILTER_SIZE] <;>
    split_ifs <;> omega

/-- Witness for C8 (amended) at requested size 3. -/
theorem construct_clamp_witness :
    (construct 6 50 1000 3).rpmFilterSize =
      (if (3 : Int) > RPM_FILTER_SIZE then RPM_FILTER_SIZE else 3) ∧
    1 ≤ (construct 6 50 1000 3).rpmFilterSize ∧
    (construct 6 50 1000 3).rpmFilterSize ≤ RPM_FILTER_SIZE :=
  construct_clamp 6 50 1000 3 (by norm_num)

/-- Helper: one successful or failed `updateCount` call preserves the
invariant `accumulator ≡ count (mod 16384)` (with Euclidean remainder),
provided every collaborator outcome is below 16384. -/
theorem accumulator_invariant_step (s : MT6701) (f : Nat → Int) (t : Nat)
    (hrange : ∀ k, f k < 16384) (hinv : s.accumulator % 16384 = s.count) :
    (updateCount s f t).accumulator % 16384 = (updateCount s f t).count := by
  rcases lt_or_le (readWithRetry f).1 0 with hneg | hpos
  · rw [updateCount_of_read_neg s f t hneg]; exact hinv
  · obtain ⟨i, -, hfi⟩ := readWithRetry_result f
    have hlt : (readWithRetry f).1 < 16384 := hfi ▸ hrange i
    have hs := updateCount_success_fields s f t _ rfl hpos
    rw [hs.1, hs.2.1]
    have hw : wrapDiff (readWithRetry f).1 s.count % 16384
        = ((readWithRetry f).1 - s.count) % 16384 := by
      simp only [wrapDiff, COUNTS_PER_REVOLUTION]
      split_ifs <;> omega
    omega

/-- C2: Accumulator invariant: starting from the constructed state
(`accumulator = 0`, `count = 0`), after every sequence of polls whose
successful reads are valid raw samples (below 16384), the state satisfies
`((accumulator % RESOLUTION) + RESOLUTION) % RESOLUTION == count`, stated
both with the C++ truncated `%` (`Int.tmod`) and with the Euclidean
remainder. -/
theorem accumulator_invariant (a : Nat) (u th n : Int) (polls : List PollInput)
    (hrange : ∀ p ∈ polls, ∀ k, p.readCount k < 16384) :
    ((((runPolls (construct a u th n) polls).accumulator.tmod COUNTS_PER_REVOLUTION)
        + COUNTS_PER_REVOLUTION).tmod COUNTS_PER_REVOLUTION
      = (runPolls (construct a u th n) polls).count) ∧
    ((runPolls (construct a u th n) polls).accumulator % COUNTS_PER_REVOLUTION
      = (runPolls (construct a u th n) polls).count) := by
  have main : ∀ (ps : List PollInput) (s : MT6701),
      (∀ p ∈ ps, ∀ k, p.readCount k < 16384) →
      s.accumulator % 16384 = s.count →
      (runPolls s ps).accumulator % 16384 = (runPolls s ps).count := by
    intro ps
    induction ps with
    | nil => intro s _ h; exact h
    | cons p ps ih =>
      intro s hr h
      exact ih (poll s p) (fun q hq k => hr q (List.mem_cons_of_mem _ hq) k)
        (accumulator_invariant_step s p.readCount p.time
          (hr p (List.mem_cons_self _ _)) h)
  have h := main polls (construct a u th n) hrange (by simp [construct])
  simp only [COUNTS_PER_REVOLUTION]
  exact ⟨by rw [tmod_sign_correction]; exact h, h⟩

/-- Witness for C2: one poll reading 100 at time 10. -/
theorem accumulator_invariant_witness :
    ((((runPolls (construct 6 50 1000 10) [⟨fun _ => 100, 10⟩]).accumulator.tmod
          COUNTS_PER_REVOLUTION)
        + COUNTS_PER_REVOLUTION).tmod COUNTS_PER_REVOLUTION
      = (runPolls (construct 6 50 1000 10) [⟨fun _ => 100, 10⟩]).count) ∧
    ((runPolls (construct 6 50 1000 10) [⟨fun _ => 100, 10⟩]).accumulator
        % COUNTS_PER_REVOLUTION
      = (runPolls (construct 6 50 1000 10) [⟨fun _ => 100, 10⟩]).count) :=
  accumulator_invariant 6 50 1000 10 [⟨fun _ => 100, 10⟩]
    (by intro p hp k; simp at hp; subst hp; norm_num)

end MT6701

namespace MT6701

/-- Helper: `updateCount` never changes the filter size, the threshold, or
the length of the filter array. -/
theorem updateCount_const_fields (s : MT6701) (f : Nat → Int) (t : Nat) :
    (updateCount s f t).rpmFilterSize = s.rpmFilterSize ∧
    (updateCount s f t).rpmThreshold = s.rpmThreshold ∧
    (updateCount s f t).rpmFilter.length = s.rpmFilter.length := by
  rcases lt_or_le (readWithRetry f).1 0 with hneg | hpos
  · rw [updateCount_of_read_neg s f t hneg]
    exact ⟨rfl, rfl, rfl⟩
  · unfold updateCount
    rw [if_neg (by omega)]
    simp only []
    split_ifs <;> simp [updateRPMFilter]

/-- Helper: every element of the filter after one `updateCount` call was
already in the filter, or is an accepted rate sample (absolute value below
the threshold). -/
theorem mem_filter_updateCount (s : MT6701) (f : Nat → Int) (t : Nat) (x : ℚ)
    (hx : x ∈ (updateCount s f t).rpmFilter) :
    x ∈ s.rpmFilter ∨ |x| < (s.rpmThreshold : ℚ) := by
  rcases lt_or_le (readWithRetry f).1 0 with hneg | hpos
  · rw [updateCount_of_read_neg s f t hneg] at hx
    exact Or.inl hx
  · rcases Nat.eq_zero_or_pos (elapsedMillis s.lastUpdateTime t) with h0 | hp
    · rw [(updateCount_elapsed_zero s f t _ rfl hpos h0).1] at hx
      exact Or.inl hx
    · by_cases hth : |computeRPM (wrapDiff (readWithRetry f).1 s.count)
          (elapsedMillis s.lastUpdateTime t)| < (s.rpmThreshold : ℚ)
      · rw [(updateCount_accepted s f t _ rfl hpos hp hth).1] at hx
        rcases List.mem_or_eq_of_mem_set hx with h | h
        · exact Or.inl h
        · exact Or.inr (h ▸ hth)
      · rw [(updateCount_rejected s f t _ rfl hpos hp hth).1] at hx
        exact Or.inl hx

/-- C6: Outlier rejection: (1) after any poll sequence from a constructed
tracker with threshold `th`, every filter slot holds 0 (its initial value)
or an accepted sample with absolute value strictly below `th`, so a rate
sample with absolute value at or above the threshold never appears in the
mean reported by `getRPM`; (2) a single successful poll whose computed rate
fails the threshold test leaves the filter buffer, and hence `getRPM`,
exactly unchanged. -/
theorem outlier_rejection (a : Nat) (u th n : Int) (polls : List PollInput) :
    (∀ x ∈ (runPolls (construct a u th n) polls).rpmFilter,
        x = 0 ∨ |x| < (th : ℚ)) ∧
    (∀ (s : MT6701) (f : Nat → Int) (t : Nat),
      0 ≤ (readWithRetry f).1 →
      0 < elapsedMillis s.lastUpdateTime t →
      ¬ |computeRPM (wrapDiff (readWithRetry f).1 s.count)
          (elapsedMillis s.lastUpdateTime t)| < (s.rpmThreshold : ℚ) →
      (updateCount s f t).rpmFilter = s.rpmFilter ∧
      getRPM (updateCount s f t) = getRPM s) := by
  constructor
  · have main : ∀ (ps : List PollInput) (s : MT6701),
        s.rpmThreshold = th →
        (∀ x ∈ s.rpmFilter, x = 0 ∨ |x| < (th : ℚ)) →
        ∀ x ∈ (runPolls s ps).rpmFilter, x = 0 ∨ |x| < (th : ℚ) := by
      intro ps
      induction ps with
      | nil => intro s _ h; exact h
      | cons p ps ih =>
        intro s hth h
        apply ih (poll s p)
        · show (updateCount s p.readCount p.time).rpmThreshold = th
          rw [(updateCount_const_fields s p.readCount p.time).2.1, hth]
        · intro y hy
          rcases mem_filter_updateCount s p.readCount p.time y hy with h' | h'
          · exact h y h'
          · exact Or.inr (hth ▸ h')
    apply main polls (construct a u th n) rfl
    intro x hx
    exact Or.inl (List.eq_of_mem_replicate hx)
  · intro s f t hpos hp hth
    have hr := updateCount_rejected s f t _ rfl hpos hp hth
    exact ⟨hr.1, getRPM_congr _ _ hr.1 (updateCount_const_fields s f t).1⟩

/-- Witness for C6: the empty poll sequence with every initial slot 0, and a
concrete rejected sample (threshold 2, read 4096 after 50 ms, rate 300)
leaving the filter and `getRPM` unchanged. -/
theorem outlier_rejection_witness :
    ((0 : ℚ) = 0 ∨ |(0 : ℚ)| < ((1000 : Int) : ℚ)) ∧
    ((updateCount (construct 6 50 2 10) (fun _ => 4096) 50).rpmFilter
        = (construct 6 50 2 10).rpmFilter ∧
      getRPM (updateCount (construct 6 50 2 10) (fun _ => 4096) 50)
        = getRPM (construct 6 50 2 10)) := by
  constructor
  · exact (outlier_rejection 6 50 1000 10 []).1 0
      (by norm_num [runPolls, construct, RPM_FILTER_SIZE, List.mem_replicate])
  · apply (outlier_rejection 6 50 2 10 []).2 (construct 6 50 2 10) (fun _ => 4096) 50
      (by decide) (by decide)
    have hw : wrapDiff (readWithRetry fun _ => (4096 : Int)).1
        (construct 6 50 2 10).count = 4096 := by decide
    have he : elapsedMillis (construct 6 50 2 10).lastUpdateTime 50 = 50 := by decide
    rw [hw, he, show ((construct 6 50 2 10).rpmThreshold : ℚ) = 2 by simp [construct]]
    norm_num [computeRPM, COUNTS_PER_REVOLUTION, SECONDS_PER_MINUTE]

/-- Helper: one `updateCount` call keeps the filter write index inside
`[0, rpmFilterSize)` whenever the size is at least 1. -/
theorem filter_index_step (s : MT6701) (f : Nat → Int) (t : Nat)
    (hsize : 1 ≤ s.rpmFilterSize)
    (h : 0 ≤ s.rpmFilterIndex ∧ s.rpmFilterIndex < s.rpmFilterSize) :
    0 ≤ (updateCount s f t).rpmFilterIndex ∧
    (updateCount s f t).rpmFilterIndex < (updateCount s f t).rpmFilterSize := by
  rcases lt_or_le (readWithRetry f).1 0 with hneg | hpos
  · rw [updateCount_of_read_neg s f t hneg]
    exact h
  · rcases Nat.eq_zero_or_pos (elapsedMillis s.lastUpdateTime t) with h0 | hp
    · rw [(updateCount_elapsed_zero s f t _ rfl hpos h0).2.1,
        (updateCount_const_fields s f t).1]
      exact h
    · by_cases hth : |computeRPM (wrapDiff (readWithRetry f).1 s.count)
          (elapsedMillis s.lastUpdateTime t)| < (s.rpmThreshold : ℚ)
      · rw [(updateCount_accepted s f t _ rfl hpos hp hth).2.1,
          (updateCount_const_fields s f t).1]
        exact ⟨Int.tmod_nonneg _ (by omega), Int.tmod_lt_of_pos _ (by omega)⟩
      · rw [(updateCount_rejected s f t _ rfl hpos hp hth).2.1,
          (updateCount_const_fields s f t).1]
        exact h

/-- C10: Implicit filter-index invariant: for every tracker constructed with
a requested filter size in `[1, RPM_FILTER_SIZE]`, after any sequence of
polls the filter write index stays in `[0, rpmFilterSize)`, the stored size
stays equal to the requested size, and the filter array keeps its fixed
length `RPM_FILTER_SIZE`, so every filter write lands inside the first
`rpmFilterSize` slots of the array and never outside it. -/
theorem filter_index_invariant (a : Nat) (u th n : Int) (polls : List PollInput)
    (hn1 : 1 ≤ n) (hn10 : n ≤ RPM_FILTER_SIZE) :
    0 ≤ (runPolls (construct a u th n) polls).rpmFilterIndex ∧
    (runPolls (construct a u th n) polls).rpmFilterIndex
      < (runPolls (construct a u th n) polls).rpmFilterSize ∧
    (runPolls (construct a u th n) polls).rpmFilterSize = n ∧
    (runPolls (construct a u th n) polls).rpmFilter.length
      = RPM_FILTER_SIZE.toNat := by
  have main : ∀ (ps : List PollInput) (s : MT6701),
      s.rpmFilterSize = n → s.rpmFilter.length = RPM_FILTER_SIZE.toNat →
      0 ≤ s.rpmFilterIndex → s.rpmFilterIndex < s.rpmFilterSize →
      0 ≤ (runPolls s ps).rpmFilterIndex ∧
        (runPolls s ps).rpmFilterIndex < (runPolls s ps).rpmFilterSize ∧
        (runPolls s ps).rpmFilterSize = n ∧
        (runPolls s ps).rpmFilter.length = RPM_FILTER_SIZE.toNat := by
    intro ps
    induction ps with
    | nil => intro s h1 h2 h3 h4; exact ⟨h3, h4, h1, h2⟩
    | cons p ps ih =>
      intro s h1 h2 h3 h4
      have hc := updateCount_const_fields s p.readCount p.time
      have hstep := filter_index_step s p.readCount p.time (by omega) ⟨h3, h4⟩
      exact ih (poll s p)
        (by show (updateCount s p.readCount p.time).rpmFilterSize = n; rw [hc.1, h1])
        (by show (updateCount s p.readCount p.time).rpmFilter.length
              = RPM_FILTER_SIZE.toNat
            rw [hc.2.2, h2])
        hstep.1 hstep.2
  apply main polls (construct a u th n)
  · show (if n > RPM_FILTER_SIZE then RPM_FILTER_SIZE else n) = n
    rw [if_neg (by omega)]
  · simp [construct, RPM_FILTER_SIZE]
  · exact le_refl 0
  · show (0 : Int) < (if n > RPM_FILTER_SIZE then RPM_FILTER_SIZE else n)
    rw [if_neg (by omega)]
    omega

/-- Witness for C10: requested size 3, one poll reading 5 at time 9. -/
theorem filter_index_invariant_witness :
    0 ≤ (runPolls (construct 6 50 1000 3) [⟨fun _ => 5, 9⟩]).rpmFilterIndex ∧
    (runPolls (construct 6 50 1000 3) [⟨fun _ => 5, 9⟩]).rpmFilterIndex
      < (runPolls (construct 6 50 1000 3) [⟨fun _ => 5, 9⟩]).rpmFilterSize ∧
    (runPolls (construct 6 50 1000 3) [⟨fun _ => 5, 9⟩]).rpmFilterSize = 3 ∧
    (runPolls (construct 6 50 1000 3) [⟨fun _ => 5, 9⟩]).rpmFilter.length
      = RPM_FILTER_SIZE.toNat :=
  filter_index_invariant 6 50 1000 3 [⟨fun _ => 5, 9⟩] (by norm_num)
    (by norm_num [RPM_FILTER_SIZE])

end MT6701

namespace MT6701

/-- Helper: `applyFilter` on the empty list is the identity. -/
theorem applyFilter_nil (s : MT6701) : applyFilter s [] = s := rfl

/-- Helper: `applyFilter` peels one sample at a time. -/
theorem applyFilter_cons (s : MT6701) (x : ℚ) (xs : List ℚ) :
    applyFilter s (x :: xs) = applyFilter (updateRPMFilter s x) xs := rfl

/-- Helper: `applyFilter` splits over list append. -/
theorem applyFilter_append (s : MT6701) (l₁ l₂ : List ℚ) :
    applyFilter s (l₁ ++ l₂) = applyFilter (applyFilter s l₁) l₂ :=
  List.foldl_append _ _ _ _

/-- Helper: `applyFilter` never changes the filter size. -/
theorem applyFilter_size (s : MT6701) (l : List ℚ) :
    (applyFilter s l).rpmFilterSize = s.rpmFilterSize := by
  induction l generalizing s with
  | nil => rfl
  | cons x xs ih => rw [applyFilter_cons, ih (updateRPMFilter s x)]; rfl

/-- Helper: writing a list of samples into the filter starting at write index
`A.length` (with the buffer decomposed as `A ++ B` and `A.length < N`, the
samples fitting in the remaining part of the window of size `N`) overwrites
`B` slot by slot and advances the write index modulo `N`. -/
theorem applyFilter_fill (l : List ℚ) :
    ∀ (s : MT6701) (A B : List ℚ) (N : ℕ),
    s.rpmFilterSize = (N : Int) →
    s.rpmFilterIndex = (A.length : Int) →
    s.rpmFilter = A ++ B →
    A.length + l.length ≤ N →
    N ≤ A.length + B.length →
    A.length < N →
    (applyFilter s l).rpmFilter = A ++ l ++ B.drop l.length ∧
    (applyFilter s l).rpmFilterIndex = (((A.length + l.length) % N : ℕ) : Int) := by
  induction l with
  | nil =>
    intro s A B N hN hi hb hfit hNl hA
    refine ⟨?_, ?_⟩
    · rw [applyFilter_nil, hb]
      simp
    · rw [applyFilter_nil, hi]
      simp [Nat.mod_eq_of_lt hA]
  | cons x xs ih =>
    intro s A B N hN hi hb hfit hNl hA
    obtain ⟨b, B', rfl⟩ : ∃ b B', B = b :: B' := by
      cases B with
      | nil => simp at hNl; omega
      | cons b B' => exact ⟨b, B', rfl⟩
    have hbuf : (updateRPMFilter s x).rpmFilter = A ++ x :: B' := by
      show s.rpmFilter.set s.rpmFilterIndex.toNat x = A ++ x :: B'
      rw [hb, hi, Int.toNat_natCast, List.set_append_right _ _ (le_refl _)]
      simp
    have hidx : (updateRPMFilter s x).rpmFilterIndex
        = (((A.length + 1) % N : ℕ) : Int) := by
      show (s.rpmFilterIndex + 1).tmod s.rpmFilterSize = _
      rw [hi, hN, show ((A.length : Int) + 1) = ((A.length + 1 : ℕ) : Int) by
        push_cast; ring]
      rw [Int.tmod_eq_emod (by positivity) (by positivity)]
      norm_cast
    rcases Nat.lt_or_ge (A.length + 1) N with hlt | hge
    · have h2 := ih (updateRPMFilter s x) (A ++ [x]) B' N
        (by rw [show (updateRPMFilter s x).rpmFilterSize = s.rpmFilterSize from rfl, hN])
        (by rw [hidx, Nat.mod_eq_of_lt hlt]; simp)
        (by rw [hbuf]; simp)
        (by simp only [List.length_append, List.length_singleton, List.length_cons,
              List.length_nil]
            simp only [List.length_cons] at hfit
            omega)
        (by simp only [List.length_append, List.length_singleton, List.length_cons,
              List.length_nil]
            simp only [List.length_cons] at hNl
            omega)
        (by simp only [List.length_append, List.length_singleton, List.length_cons,
              List.length_nil]
            omega)
      constructor
      · rw [applyFilter_cons, h2.1]
        simp [List.append_assoc, List.length_cons, List.drop_succ_cons]
      · rw [applyFilter_cons, h2.2]
        have harg : (A ++ [x]).length + xs.length = A.length + (x :: xs).length := by
          simp only [List.length_append, List.length_singleton, List.length_cons,
            List.length_nil]
          omega
        rw [harg]
    · have hxs : xs = [] := by
        simp only [List.length_cons] at hfit
        have hx0 : xs.length = 0 := by omega
        exact List.length_eq_zero.mp hx0
      subst hxs
      constructor
      · rw [applyFilter_cons, applyFilter_nil, hbuf]
        simp
      · rw [applyFilter_cons, applyFilter_nil, hidx]
        norm_num

end MT6701

namespace MT6701

/-- C7: Filter window behavior: for a freshly constructed tracker with
requested filter capacity `N` in `[1, 10]`, after exactly `N` accepted rate
samples `getRPM` equals their arithmetic mean; after an `(N+1)`-th accepted
sample the first sample is overwritten and no longer contributes: `getRPM`
is the mean of samples `2..N` together with the new one (the buffer is a
ring and the oldest sample is evicted). -/
theorem filter_window (a : Nat) (u th : Int) (N : ℕ) (l : List ℚ) (x : ℚ)
    (hN1 : 1 ≤ N) (hN10 : N ≤ 10) (hlen : l.length = N) :
    getRPM (applyFilter (construct a u th (N : Int)) l) = l.sum / (N : ℚ) ∧
    getRPM (applyFilter (construct a u th (N : Int)) (l ++ [x]))
      = ((l.drop 1).sum + x) / (N : ℚ) := by
  have hsize : (construct a u th (N : Int)).rpmFilterSize = (N : Int) := by
    show (if (N : Int) > RPM_FILTER_SIZE then RPM_FILTER_SIZE else (N : Int))
      = (N : Int)
    rw [if_neg (by simp only [RPM_FILTER_SIZE]; omega)]
  have hbuf0 : (construct a u th (N : Int)).rpmFilter
      = [] ++ List.replicate 10 (0 : ℚ) := rfl
  have hidx0 : (construct a u th (N : Int)).rpmFilterIndex
      = (([] : List ℚ).length : Int) := rfl
  have h1 := applyFilter_fill l (construct a u th (N : Int)) []
    (List.replicate 10 0) N hsize hidx0 hbuf0
    (by simp [hlen])
    (by simp only [List.length_nil, List.length_replicate]; omega)
    (by simp only [List.length_nil]; omega)
  have hsz1 : (applyFilter (construct a u th (N : Int)) l).rpmFilterSize
      = (N : Int) := by
    rw [applyFilter_size, hsize]
  have hrpm1 : getRPM (applyFilter (construct a u th (N : Int)) l)
      = l.sum / (N : ℚ) := by
    rw [getRPM, hsz1, h1.1]
    simp only [List.nil_append, Int.toNat_natCast]
    rw [List.take_left' hlen]
    push_cast
    ring
  refine ⟨hrpm1, ?_⟩
  have hidx1 : (applyFilter (construct a u th (N : Int)) l).rpmFilterIndex
      = (([] : List ℚ).length : Int) := by
    rw [h1.2]
    simp [hlen]
  obtain ⟨y, ys, rfl⟩ : ∃ y ys, l = y :: ys := by
    cases l with
    | nil => simp at hlen; omega
    | cons y ys => exact ⟨y, ys, rfl⟩
  have hys : ys.length + 1 = N := by simpa using hlen
  have hbuf1 : (applyFilter (construct a u th (N : Int)) (y :: ys)).rpmFilter
      = [] ++ ((y :: ys) ++ List.replicate (10 - N) (0 : ℚ)) := by
    rw [h1.1, hlen, List.drop_replicate]
    simp
  have h2 := applyFilter_fill [x]
    (applyFilter (construct a u th (N : Int)) (y :: ys)) []
    ((y :: ys) ++ List.replicate (10 - N) 0) N hsz1 hidx1 hbuf1
    (by simp only [List.length_nil, List.length_singleton, List.length_cons]; omega)
    (by simp only [List.length_nil, List.length_append, List.length_cons,
          List.length_replicate]
        omega)
    (by simp only [List.length_nil]; omega)
  rw [applyFilter_append, getRPM,
    show (applyFilter (applyFilter (construct a u th (N : Int)) (y :: ys))
        [x]).rpmFilterSize = (N : Int) by rw [applyFilter_size, hsz1],
    h2.1]
  simp only [List.nil_append, Int.toNat_natCast, List.length_singleton,
    List.cons_append, List.drop_succ_cons, List.drop_nil, List.drop_zero]
  rw [show N = ys.length + 1 from hys.symm, List.take_succ_cons,
    List.take_left' rfl, List.sum_cons]
  push_cast
  ring

/-- Witness for C7: capacity 2, accepted samples 1 and 2 give mean 3/2; a
third accepted sample 5 evicts the first, giving mean (2 + 5)/2. -/
theorem filter_window_witness :
    getRPM (applyFilter (construct 6 50 1000 ((2 : ℕ) : Int)) [1, 2])
      = ([1, 2] : List ℚ).sum / ((2 : ℕ) : ℚ) ∧
    getRPM (applyFilter (construct 6 50 1000 ((2 : ℕ) : Int)) ([1, 2] ++ [5]))
      = ((([1, 2] : List ℚ).drop 1).sum + 5) / ((2 : ℕ) : ℚ) :=
  filter_window 6 50 1000 2 [1, 2] 5 (by norm_num) (by norm_num) (by norm_num)

end MT6701
